import Mathlib

/-!
Verification of the Day7 repository's animation system (`animation.py`)
and of the collision geometry of `pygine/sprite.py`.
Python floats are modelled as exact numbers: rationals for the animation
timing (only `+`, `/` and comparisons occur there), reals for the sprite
geometry (which uses `math.sqrt`, `math.cos`, `math.sin`).  Python's
`int(x)` is truncation toward zero.  The wall-clock field `start_time`
(set from `time.time()` and never read back by any code path under
study) is omitted from the manager state.
-/

/-- The `Animation` dataclass: a name, a list of sprite-sheet frame
indices, a playback speed in frames per second and a loop flag. -/
structure Animation where
  name : String
  frames : List Int
  fps : ℚ
  loop : Bool

/-- `Animation.__post_init__` validation: a `ValueError` is raised unless
the frame list is nonempty and the fps is positive. -/
def Animation.valid (a : Animation) : Prop :=
  a.frames ≠ [] ∧ 0 < a.fps

/-- `self.frame_duration = 1.0 / self.fps`, computed in
`__post_init__`; modelled as a derived function of the state. -/
def Animation.frame_duration (a : Animation) : ℚ := 1 / a.fps

/-- The mutable state of `AnimationManager`.  The `animations` dict is
modelled extensionally as a lookup function. -/
@[ext]
structure AnimationManager where
  animations : String → Option Animation
  current_animation : Option Animation
  current_animation_name : Option String
  current_frame_index : Nat
  frame_timer : ℚ
  is_playing : Bool
  is_paused : Bool
  finished : Bool

/-- `AnimationManager.__init__`. -/
def initManager : AnimationManager where
  animations := fun _ => none
  current_animation := none
  current_animation_name := none
  current_frame_index := 0
  frame_timer := 0
  is_playing := false
  is_paused := false
  finished := false

/-- `add_animation`: store the animation under its own name
(dict assignment, overwriting any previous entry). -/
def AnimationManager.add_animation (m : AnimationManager) (a : Animation) :
    AnimationManager :=
  { m with animations := fun n => if n = a.name then some a else m.animations n }

/-- `play_animation(name, restart)`: returns the success flag together
with the post-call state. -/
def AnimationManager.play_animation (m : AnimationManager) (name : String)
    (restart : Bool) : Bool × AnimationManager :=
  match m.animations name with
  | none => (false, m)
  | some animation =>
    if m.current_animation_name = some name ∧ m.is_playing ∧ ¬restart ∧ ¬m.finished then
      (true, m)
    else
      (true, { m with
        current_animation := some animation
        current_animation_name := some name
        current_frame_index := 0
        frame_timer := 0
        is_playing := true
        is_paused := false
        finished := false })

/-- `stop`. -/
def AnimationManager.stop (m : AnimationManager) : AnimationManager :=
  { m with is_playing := false, is_paused := false,
           current_frame_index := 0, frame_timer := 0, finished := false }

/-- `pause`. -/
def AnimationManager.pause (m : AnimationManager) : AnimationManager :=
  if m.is_playing then { m with is_paused := true } else m

/-- `resume`. -/
def AnimationManager.resume (m : AnimationManager) : AnimationManager :=
  if m.is_playing ∧ m.is_paused then { m with is_paused := false } else m

/-- `update(dt)`.  The source checks `not is_playing or is_paused or not
current_animation` before touching `current_animation`; matching on the
option first and testing the flags second returns the same unchanged
state in every early-exit case.  The mutation `frame_timer += dt` is
inlined into each branch: the timer holds `frame_timer + dt` wherever
the source reads it after the increment. -/
def AnimationManager.update (m : AnimationManager) (dt : ℚ) : AnimationManager :=
  match m.current_animation with
  | none => m
  | some anim =>
    if ¬m.is_playing ∨ m.is_paused then m
    else if m.finished ∧ ¬anim.loop then m
    else if anim.frame_duration ≤ m.frame_timer + dt then
      if anim.frames.length ≤ m.current_frame_index + 1 then
        if anim.loop then
          { m with frame_timer := 0, current_frame_index := 0 }
        else
          { m with frame_timer := 0,
                   current_frame_index := anim.frames.length - 1,
                   finished := true, is_playing := false }
      else
        { m with frame_timer := 0,
                 current_frame_index := m.current_frame_index + 1 }
    else
      { m with frame_timer := m.frame_timer + dt }

/-- `remove_animation`: stops playback first when the removed animation
is the active one. -/
def AnimationManager.remove_animation (m : AnimationManager) (name : String) :
    Bool × AnimationManager :=
  match m.animations name with
  | none => (false, m)
  | some _ =>
    if m.current_animation_name = some name then
      (true, { m.stop with
        animations := fun n => if n = name then none else m.animations n })
    else
      (true, { m with
        animations := fun n => if n = name then none else m.animations n })

/-- `clear_animations`. -/
def AnimationManager.clear_animations (m : AnimationManager) : AnimationManager :=
  { m.stop with animations := fun _ => none }

/-- One public operation on the manager, as enumerated by claim C6.
`add` carries the `__post_init__` validation of the added animation. -/
inductive ManagerStep : AnimationManager → AnimationManager → Prop
  | add (m : AnimationManager) (a : Animation) (h : a.valid) :
      ManagerStep m (m.add_animation a)
  | play (m : AnimationManager) (n : String) (r : Bool) :
      ManagerStep m (m.play_animation n r).2
  | stop (m : AnimationManager) : ManagerStep m m.stop
  | pause (m : AnimationManager) : ManagerStep m m.pause
  | resume (m : AnimationManager) : ManagerStep m m.resume
  | update (m : AnimationManager) (dt : ℚ) : ManagerStep m (m.update dt)
  | remove (m : AnimationManager) (n : String) :
      ManagerStep m (m.remove_animation n).2
  | clear (m : AnimationManager) : ManagerStep m m.clear_animations

/-- Manager states reachable from a fresh manager by any sequence of
public operations. -/
inductive Reachable : AnimationManager → Prop
  | init : Reachable initManager
  | step {m m' : AnimationManager} : Reachable m → ManagerStep m m' → Reachable m'

/-- The invariant of claim C6: a set `finished` flag means the active
clip is non-looping and the frame index rests on its last frame. -/
def FinishedInv (m : AnimationManager) : Prop :=
  m.finished = true →
    ∃ a, m.current_animation = some a ∧ a.loop = false ∧
      m.current_frame_index = a.frames.length - 1

/-- The clip of claim C1's scenario: non-looping `[0, 1, 2]` at 10 fps
(0.1 s per frame). -/
def clip012 : Animation := { name := "clip", frames := [0, 1, 2], fps := 10, loop := false }

/-- A manager freshly playing `clip012`: frame index 0, timer 0. -/
def freshClipManager : AnimationManager where
  animations := fun n => if n = "clip" then some clip012 else none
  current_animation := some clip012
  current_animation_name := some "clip"
  current_frame_index := 0
  frame_timer := 0
  is_playing := true
  is_paused := false
  finished := false

/-- A two-frame looping clip at 2 fps, used to instantiate C2. -/
def spinClip : Animation := { name := "spin", frames := [0, 1], fps := 2, loop := true }

/-- A manager freshly playing `spinClip`. -/
def freshSpinManager : AnimationManager where
  animations := fun n => if n = "spin" then some spinClip else none
  current_animation := some spinClip
  current_animation_name := some "spin"
  current_frame_index := 0
  frame_timer := 0
  is_playing := true
  is_paused := false
  finished := false

/-- A 2-D point, a Python `(float, float)` tuple. -/
abbrev Point := ℝ × ℝ

/-- The `hitbox_shape` attribute; the code only ever assigns the two
strings `"rect"` and `"circle"`. -/
inductive HitboxShape
  | rect
  | circle
  deriving DecidableEq

/-- The fields of `AnimatedSprite` that the collision and animation
claims read.  Fields tied to pygame surfaces (`image`, `rect`, the
extracted frame list) are omitted; `frame_size` is the constructor's
`(width, height)` pair of ints. -/
structure Sprite where
  position : ℝ × ℝ
  frame_size : ℤ × ℤ
  scale : ℝ
  rotation : ℝ
  collision_offset : ℤ × ℤ
  custom_hitbox_size : Option (ℝ × ℝ)
  hitbox_shape : HitboxShape
  hitbox_radius : Option ℝ
  mirrored : Bool
  animation_manager : AnimationManager

/-- Python `int(x)`: truncation toward zero. -/
noncomputable def pyInt (x : ℝ) : ℤ := if 0 ≤ x then ⌊x⌋ else ⌈x⌉

/-- `math.radians`. -/
noncomputable def radians (d : ℝ) : ℝ := d * Real.pi / 180

/-- Hitbox width as `_get_corners` computes it: the custom size if set
(custom sizes are not rescaled), else frame width times scale. -/
noncomputable def Sprite.hitboxWidth (s : Sprite) : ℝ :=
  match s.custom_hitbox_size with
  | some wh => wh.1
  | none => (s.frame_size.1 : ℝ) * s.scale

/-- Hitbox height, same convention as `Sprite.hitboxWidth`. -/
noncomputable def Sprite.hitboxHeight (s : Sprite) : ℝ :=
  match s.custom_hitbox_size with
  | some wh => wh.2
  | none => (s.frame_size.2 : ℝ) * s.scale

/-- The integer hitbox center used by every collision path and by
`debug_draw`: `int(position) + collision_offset`. -/
noncomputable def Sprite.hitboxCenter (s : Sprite) : ℤ × ℤ :=
  (pyInt s.position.1 + s.collision_offset.1,
   pyInt s.position.2 + s.collision_offset.2)

/-- `hitbox_radius` unwrapped; a `None` radius would raise a
`TypeError` in Python, and C4's well-formedness excludes that case. -/
noncomputable def Sprite.radius (s : Sprite) : ℝ := s.hitbox_radius.getD 0

/-- `_get_corners`: the four world-space hitbox corners.  Corners are
built around the origin, rotated by the negated angle when the
rotation is nonzero, then translated by the integer center. -/
noncomputable def Sprite.getCorners (s : Sprite) : List Point :=
  (if s.rotation ≠ 0 then
    ([(-(s.hitboxWidth / 2), -(s.hitboxHeight / 2)),
      (s.hitboxWidth / 2, -(s.hitboxHeight / 2)),
      (s.hitboxWidth / 2, s.hitboxHeight / 2),
      (-(s.hitboxWidth / 2), s.hitboxHeight / 2)] : List Point).map
      (fun p => (p.1 * Real.cos (radians (-s.rotation)) - p.2 * Real.sin (radians (-s.rotation)),
                 p.1 * Real.sin (radians (-s.rotation)) + p.2 * Real.cos (radians (-s.rotation))))
  else
    ([(-(s.hitboxWidth / 2), -(s.hitboxHeight / 2)),
      (s.hitboxWidth / 2, -(s.hitboxHeight / 2)),
      (s.hitboxWidth / 2, s.hitboxHeight / 2),
      (-(s.hitboxWidth / 2), s.hitboxHeight / 2)] : List Point)).map
    (fun p => ((s.hitboxCenter.1 : ℝ) + p.1, (s.hitboxCenter.2 : ℝ) + p.2))

/-- The successive edge endpoint pairs `(corners[i], corners[(i+1) % n])`
iterated by the SAT loop, by `_point_in_polygon` and by the
polygon-circle edge scan. -/
def edgePairs (l : List Point) : List (Point × Point) := l.zip (l.rotate 1)

/-- Python `min` over a nonempty list (the empty case never occurs: it
is only applied to projections of the four corners). -/
def listMin : List ℝ → ℝ
  | [] => 0
  | x :: xs => xs.foldl min x

/-- Python `max` over a nonempty list. -/
def listMax : List ℝ → ℝ
  | [] => 0
  | x :: xs => xs.foldl max x

/-- The SAT normal of the edge from `p1` to `p2`:
`(-edge_y, edge_x)`. -/
def edgeNormal (p1 p2 : Point) : Point := (-(p2.2 - p1.2), p2.1 - p1.1)

/-- The length `sqrt(normal_x**2 + normal_y**2)` of that normal. -/
noncomputable def edgeLen (p1 p2 : Point) : ℝ :=
  Real.sqrt ((edgeNormal p1 p2).1 ^ 2 + (edgeNormal p1 p2).2 ^ 2)

/-- One iteration of `_separating_axis_test`: does the axis normal to
edge `p1 p2` separate the projections of `A` and `B`?  A zero-length
edge is skipped (`continue`), i.e. never separates. -/
noncomputable def separates (A B : List Point) (p1 p2 : Point) : Bool :=
  if edgeLen p1 p2 = 0 then false
  else
    if listMax (A.map fun c =>
          c.1 * ((edgeNormal p1 p2).1 / edgeLen p1 p2) +
          c.2 * ((edgeNormal p1 p2).2 / edgeLen p1 p2)) <
        listMin (B.map fun c =>
          c.1 * ((edgeNormal p1 p2).1 / edgeLen p1 p2) +
          c.2 * ((edgeNormal p1 p2).2 / edgeLen p1 p2)) ∨
       listMax (B.map fun c =>
          c.1 * ((edgeNormal p1 p2).1 / edgeLen p1 p2) +
          c.2 * ((edgeNormal p1 p2).2 / edgeLen p1 p2)) <
        listMin (A.map fun c =>
          c.1 * ((edgeNormal p1 p2).1 / edgeLen p1 p2) +
          c.2 * ((edgeNormal p1 p2).2 / edgeLen p1 p2)) then true
    else false

/-- `_separating_axis_test`: `True` unless some edge of either polygon
yields a separating axis (the early `return False`). -/
noncomputable def sepAxisTest (A B : List Point) : Bool :=
  (edgePairs A ++ edgePairs B).all fun e => !separates A B e.1 e.2

/-- `_check_circle_collision`: distance between integer centers at most
the sum of the radii. -/
noncomputable def checkCircleCollision (a b : Sprite) : Bool :=
  if Real.sqrt
      ((((b.hitboxCenter.1 - a.hitboxCenter.1 : ℤ)) : ℝ) *
        (((b.hitboxCenter.1 - a.hitboxCenter.1 : ℤ)) : ℝ) +
       (((b.hitboxCenter.2 - a.hitboxCenter.2 : ℤ)) : ℝ) *
        (((b.hitboxCenter.2 - a.hitboxCenter.2 : ℤ)) : ℝ)) ≤
      a.radius + b.radius then true
  else false

/-- `line_len_sq` of `_point_to_line_distance`. -/
noncomputable def lineLenSq (l1 l2 : Point) : ℝ :=
  (l2.1 - l1.1) * (l2.1 - l1.1) + (l2.2 - l1.2) * (l2.2 - l1.2)

/-- Point-to-point Euclidean distance as the code spells it. -/
noncomputable def pointDist (p q : Point) : ℝ :=
  Real.sqrt ((p.1 - q.1) * (p.1 - q.1) + (p.2 - q.2) * (p.2 - q.2))

/-- `_point_to_line_distance`: distance from `p` to the segment
`l1 l2`; a zero-length segment degenerates to the distance to `l1`. -/
noncomputable def pointToLineDistance (p l1 l2 : Point) : ℝ :=
  if lineLenSq l1 l2 = 0 then pointDist p l1
  else
    pointDist p
      (l1.1 + max 0 (min 1 (((p.1 - l1.1) * (l2.1 - l1.1) + (p.2 - l1.2) * (l2.2 - l1.2)) /
          lineLenSq l1 l2)) * (l2.1 - l1.1),
       l1.2 + max 0 (min 1 (((p.1 - l1.1) * (l2.1 - l1.1) + (p.2 - l1.2) * (l2.2 - l1.2)) /
          lineLenSq l1 l2)) * (l2.2 - l1.2))

/-- `_point_in_polygon`, ray casting.  When `p1y == p2y` the guards
`y > min` and `y <= max` are contradictory, so the branch reading the
stale `xinters` is unreachable; it is modelled as toggling only when
`p1x == p2x`. -/
noncomputable def pointInPolygon (p : Point) (poly : List Point) : Bool :=
  (edgePairs poly).foldl
    (fun inside e =>
      if p.2 > min e.1.2 e.2.2 ∧ p.2 ≤ max e.1.2 e.2.2 ∧ p.1 ≤ max e.1.1 e.2.1 then
        if e.1.2 ≠ e.2.2 then
          if e.1.1 = e.2.1 ∨
              p.1 ≤ (p.2 - e.1.2) * (e.2.1 - e.1.1) / (e.2.2 - e.1.2) + e.1.1 then
            !inside
          else inside
        else if e.1.1 = e.2.1 then !inside else inside
      else inside)
    false

/-- `_check_polygon_circle_collision`: the circle center inside the
polygon, or within the radius of some edge. -/
noncomputable def checkPolygonCircleCollision (cs rs : Sprite) : Bool :=
  if pointInPolygon ((cs.hitboxCenter.1 : ℝ), (cs.hitboxCenter.2 : ℝ)) rs.getCorners then
    true
  else
    (edgePairs rs.getCorners).any fun e =>
      if pointToLineDistance ((cs.hitboxCenter.1 : ℝ), (cs.hitboxCenter.2 : ℝ))
          e.1 e.2 ≤ cs.radius then true else false

/-- `_check_circle_rect_collision`: the circle-shaped sprite is
identified, a rotated or custom-sized rectangle goes through the
polygon-circle path, and the axis-aligned default goes through the
closest-point test. -/
noncomputable def checkCircleRectCollision (self other : Sprite) : Bool :=
  let cs := if self.hitbox_shape = HitboxShape.circle then self else other
  let rs := if self.hitbox_shape = HitboxShape.circle then other else self
  if rs.rotation ≠ 0 ∨ rs.custom_hitbox_size.isSome then
    checkPolygonCircleCollision cs rs
  else
    let rect_width := (rs.frame_size.1 : ℝ) * rs.scale
    let rect_height := (rs.frame_size.2 : ℝ) * rs.scale
    let rect_left := (rs.hitboxCenter.1 : ℝ) - rect_width / 2
    let rect_right := (rs.hitboxCenter.1 : ℝ) + rect_width / 2
    let rect_top := (rs.hitboxCenter.2 : ℝ) - rect_height / 2
    let rect_bottom := (rs.hitboxCenter.2 : ℝ) + rect_height / 2
    let closest_x := max rect_left (min ((cs.hitboxCenter.1 : ℝ)) rect_right)
    let closest_y := max rect_top (min ((cs.hitboxCenter.2 : ℝ)) rect_bottom)
    if Real.sqrt
        (((cs.hitboxCenter.1 : ℝ) - closest_x) * ((cs.hitboxCenter.1 : ℝ) - closest_x) +
         ((cs.hitboxCenter.2 : ℝ) - closest_y) * ((cs.hitboxCenter.2 : ℝ) - closest_y)) ≤
        cs.radius then true
    else false

/-- `collides_with`: circle-circle, then mixed, then the corner-based
separating-axis test. -/
noncomputable def collidesWith (a b : Sprite) : Bool :=
  if a.hitbox_shape = HitboxShape.circle ∧ b.hitbox_shape = HitboxShape.circle then
    checkCircleCollision a b
  else if a.hitbox_shape = HitboxShape.circle ∨ b.hitbox_shape = HitboxShape.circle then
    checkCircleRectCollision a b
  else
    sepAxisTest a.getCorners b.getCorners

/-- Modelled from the spec's corner description (§ hitbox corners): half
sizes from the custom size if set (not rescaled) or frame size times
scale, each corner rotated by the negated rotation angle, then
translated by the truncated center plus integer offset. -/
noncomputable def cornersSpec (s : Sprite) : List Point :=
  ([(-(s.hitboxWidth / 2), -(s.hitboxHeight / 2)),
    (s.hitboxWidth / 2, -(s.hitboxHeight / 2)),
    (s.hitboxWidth / 2, s.hitboxHeight / 2),
    (-(s.hitboxWidth / 2), s.hitboxHeight / 2)] : List Point).map
    fun p =>
      ((s.hitboxCenter.1 : ℝ) +
        (p.1 * Real.cos (radians (-s.rotation)) - p.2 * Real.sin (radians (-s.rotation))),
       (s.hitboxCenter.2 : ℝ) +
        (p.1 * Real.sin (radians (-s.rotation)) + p.2 * Real.cos (radians (-s.rotation))))

/-- The integer polygon vertices drawn by `debug_draw` in its
rectangular branch: the same `_get_corners` output, truncated for
drawing. -/
noncomputable def debugDrawCorners (s : Sprite) : List (ℤ × ℤ) :=
  s.getCorners.map fun p => (pyInt p.1, pyInt p.2)

/-- C4's well-formedness: a circle-shaped hitbox has its radius set. -/
def Wellformed (s : Sprite) : Prop :=
  s.hitbox_shape = HitboxShape.circle → s.hitbox_radius.isSome = true

/-- Sprite-level `play_animation(name, restart, mirror)`: the mirror
override is written to `_mirrored` before the manager lookup runs. -/
def Sprite.play_animation (s : Sprite) (name : String) (restart : Bool)
    (mirror : Option Bool) : Bool × Sprite :=
  match mirror with
  | some b =>
    ((s.animation_manager.play_animation name restart).1,
     { s with mirrored := b,
              animation_manager := (s.animation_manager.play_animation name restart).2 })
  | none =>
    ((s.animation_manager.play_animation name restart).1,
     { s with animation_manager := (s.animation_manager.play_animation name restart).2 })

/-- The x coordinates of a sprite's hitbox corners. -/
noncomputable def cornerXs (s : Sprite) : List ℝ := s.getCorners.map Prod.fst

/-- The y coordinates of a sprite's hitbox corners. -/
noncomputable def cornerYs (s : Sprite) : List ℝ := s.getCorners.map Prod.snd

/-- A default sprite chassis shared by the concrete witnesses: a 32x32
frame at the origin, unrotated, unscaled, default rectangle hitbox. -/
noncomputable def baseSprite : Sprite where
  position := (0, 0)
  frame_size := (32, 32)
  scale := 1
  rotation := 0
  collision_offset := (0, 0)
  custom_hitbox_size := none
  hitbox_shape := HitboxShape.rect
  hitbox_radius := none
  mirrored := false
  animation_manager := initManager

/-- A second rectangle sprite far to the right of `baseSprite`. -/
noncomputable def farSprite : Sprite := { baseSprite with position := (100, 0) }

/-- A circle-hitbox sprite at the origin. -/
noncomputable def circleSpriteA : Sprite :=
  { baseSprite with hitbox_shape := HitboxShape.circle, hitbox_radius := some 5 }

/-- A circle-hitbox sprite at `(3, 4)`. -/
noncomputable def circleSpriteB : Sprite :=
  { baseSprite with
    position := (3, 4)
    hitbox_shape := HitboxShape.circle
    hitbox_radius := some 2 }

/-- A degenerate rectangle sprite: custom hitbox size `(0, 0)`. -/
noncomputable def pointSpriteA : Sprite :=
  { baseSprite with custom_hitbox_size := some (0, 0) }

/-- The same degenerate hitbox placed at `x = 100`. -/
noncomputable def pointSpriteB : Sprite :=
  { baseSprite with position := (100, 0), custom_hitbox_size := some (0, 0) }

/-- One `update(1/fps)` call from a state whose frame timer is zero: the
timer reaches exactly one frame duration, so the single conditional
check fires and the frame index advances once (wrapping for a looping
clip, finishing on the last frame otherwise). -/
theorem update_fresh_step (anims : String → Option Animation) (curn : Option String)
    (a : Animation) (j : ℕ) :
    AnimationManager.update ⟨anims, some a, curn, j, 0, true, false, false⟩ (1 / a.fps) =
      if a.frames.length ≤ j + 1 then
        if a.loop then ⟨anims, some a, curn, 0, 0, true, false, false⟩
        else ⟨anims, some a, curn, a.frames.length - 1, 0, false, false, true⟩
      else ⟨anims, some a, curn, j + 1, 0, true, false, false⟩ := by
  simp [AnimationManager.update, Animation.frame_duration]

/-- C1: with the non-looping clip `[0,1,2]` at rate 10 freshly started,
one `update(0.35)` call lands on frame index 1 — not 2 and not a
clamped jump — and in general a single `update` call advances
`current_frame_index` by at most one, whatever `dt` is. -/
theorem claim1_at_most_one_advance_per_call :
    (freshClipManager.update (35 / 100)).current_frame_index = 1 ∧
    ∀ (m : AnimationManager) (dt : ℚ),
      (m.update dt).current_frame_index ≤ m.current_frame_index + 1 := by
  constructor
  · norm_num [freshClipManager, clip012, AnimationManager.update, Animation.frame_duration]
  · intro m dt
    simp only [AnimationManager.update]
    (repeat' split) <;> try simp
    all_goals omega

/-- C2: starting a fresh `N`-frame clip and calling `update(1/fps)`
exactly `N` times walks the clip once around: a looping clip is back on
frame 0, a non-looping clip rests on frame `N-1` with `finished` set
and `is_playing` cleared. -/
theorem claim2_one_full_cycle (m : AnimationManager) (a : Animation) (N : ℕ)
    (ha : m.current_animation = some a) (hlen : a.frames.length = N)
    (hN : 1 ≤ N) (hfps : 0 < a.fps)
    (hidx : m.current_frame_index = 0) (htimer : m.frame_timer = 0)
    (hplay : m.is_playing = true) (hpause : m.is_paused = false)
    (hfin : m.finished = false) :
    (a.loop = true →
      ((fun s : AnimationManager => s.update (1 / a.fps))^[N] m).current_frame_index = 0) ∧
    (a.loop = false →
      ((fun s : AnimationManager => s.update (1 / a.fps))^[N] m).current_frame_index = N - 1 ∧
      ((fun s : AnimationManager => s.update (1 / a.fps))^[N] m).finished = true ∧
      ((fun s : AnimationManager => s.update (1 / a.fps))^[N] m).is_playing = false) := by
  obtain ⟨anims, cur, curn, idx, tmr, pl, pa, fin⟩ := m
  obtain rfl : cur = some a := ha
  obtain rfl : idx = 0 := hidx
  obtain rfl : tmr = 0 := htimer
  obtain rfl : pl = true := hplay
  obtain rfl : pa = false := hpause
  obtain rfl : fin = false := hfin
  have key : ∀ j, j < N →
      (fun s : AnimationManager => s.update (1 / a.fps))^[j]
        ⟨anims, some a, curn, 0, 0, true, false, false⟩ =
      ⟨anims, some a, curn, j, 0, true, false, false⟩ := by
    intro j
    induction j with
    | zero => intro _; rfl
    | succ j ih =>
      intro hj
      rw [Function.iterate_succ_apply', ih (by omega)]
      show AnimationManager.update _ _ = _
      rw [update_fresh_step anims curn a j,
        if_neg (by rw [hlen]; omega : ¬a.frames.length ≤ j + 1)]
  obtain ⟨N', rfl⟩ : ∃ N', N = N' + 1 := ⟨N - 1, by omega⟩
  rw [Function.iterate_succ_apply', key N' (by omega)]
  have hstep := update_fresh_step anims curn a N'
  rw [if_pos (by omega : a.frames.length ≤ N' + 1)] at hstep
  constructor
  · intro hl
    rw [hstep, if_pos hl]
  · intro hl
    rw [hstep, if_neg (by simp [hl])]
    refine ⟨?_, rfl, rfl⟩
    simp [hlen]

/-- Witness for C2 on the concrete two-frame looping clip `spinClip`. -/
theorem claim2_witness :
    freshSpinManager.current_animation = some spinClip ∧
    spinClip.frames.length = 2 ∧ (0 : ℚ) < spinClip.fps ∧
    freshSpinManager.current_frame_index = 0 ∧ spinClip.loop = true ∧
    ((fun s : AnimationManager => s.update (1 / spinClip.fps))^[2]
        freshSpinManager).current_frame_index = 0 :=
  ⟨rfl, rfl, by norm_num [spinClip], rfl, rfl,
    (claim2_one_full_cycle freshSpinManager spinClip 2 rfl rfl (by omega)
      (by norm_num [spinClip]) rfl rfl rfl rfl rfl).1 rfl⟩

/-- C7: calling `play_animation(name)` while the clip named `name` is
registered, active, playing and unfinished, without `restart`, is a
no-op success: it returns `True` and the whole state is unchanged. -/
theorem claim7_play_idempotent (m : AnimationManager) (name : String) (a : Animation)
    (hreg : m.animations name = some a)
    (hcur : m.current_animation_name = some name)
    (hplay : m.is_playing = true) (hfin : m.finished = false) :
    m.play_animation name false = (true, m) := by
  simp [AnimationManager.play_animation, hreg, hcur, hplay, hfin]

/-- Witness for C7 at a concrete mid-playback manager. -/
theorem claim7_witness :
    freshClipManager.animations "clip" = some clip012 ∧
    freshClipManager.current_animation_name = some "clip" ∧
    freshClipManager.is_playing = true ∧
    freshClipManager.finished = false ∧
    freshClipManager.play_animation "clip" false = (true, freshClipManager) :=
  ⟨rfl, rfl, rfl, rfl,
    claim7_play_idempotent freshClipManager "clip" clip012 rfl rfl rfl rfl⟩

/-- C8: `play_animation` on an unregistered name returns `False` and
leaves the manager state exactly as it was. -/
theorem claim8_play_unknown_name (m : AnimationManager) (name : String) (restart : Bool)
    (h : m.animations name = none) :
    m.play_animation name restart = (false, m) := by
  simp [AnimationManager.play_animation, h]

/-- Witness for C8 at a concrete manager and name. -/
theorem claim8_witness :
    initManager.animations "ghost" = none ∧
    initManager.play_animation "ghost" true = (false, initManager) :=
  ⟨rfl, claim8_play_unknown_name initManager "ghost" true rfl⟩

/-- `add_animation` touches only the `animations` dict, so it preserves
the finished-flag invariant. -/
theorem finishedInv_add (m : AnimationManager) (a : Animation)
    (ih : FinishedInv m) : FinishedInv (m.add_animation a) := ih

/-- `play_animation` preserves the finished-flag invariant: it either
leaves the state alone or clears `finished`. -/
theorem finishedInv_play (m : AnimationManager) (n : String) (r : Bool)
    (ih : FinishedInv m) : FinishedInv (m.play_animation n r).2 := by
  unfold AnimationManager.play_animation
  split
  · exact ih
  · split
    · exact ih
    · intro hf
      simp at hf

/-- `stop` clears `finished`, so it preserves the invariant. -/
theorem finishedInv_stop (m : AnimationManager) : FinishedInv m.stop := by
  intro hf
  simp [AnimationManager.stop] at hf

/-- `pause` touches only `is_paused`. -/
theorem finishedInv_pause (m : AnimationManager) (ih : FinishedInv m) :
    FinishedInv m.pause := by
  unfold AnimationManager.pause
  split
  · exact ih
  · exact ih

/-- `resume` touches only `is_paused`. -/
theorem finishedInv_resume (m : AnimationManager) (ih : FinishedInv m) :
    FinishedInv m.resume := by
  unfold AnimationManager.resume
  split
  · exact ih
  · exact ih

/-- `update` preserves the finished-flag invariant: when it sets
`finished` it simultaneously parks the index on the last frame of the
active non-looping clip, and once the invariant holds a finished state
is never advanced again. -/
theorem finishedInv_update (m : AnimationManager) (dt : ℚ)
    (ih : FinishedInv m) : FinishedInv (m.update dt) := by
  unfold AnimationManager.update
  split
  · exact ih
  · rename_i anim hc
    split
    · exact ih
    · split
      · exact ih
      · rename_i hguard
        have hnf : m.finished = false := by
          cases hfm : m.finished
          · rfl
          · exfalso
            obtain ⟨a0, ha0, hl0, _⟩ := ih hfm
            rw [hc] at ha0
            injection ha0 with ha0'
            exact hguard ⟨hfm, by rw [ha0']; simp [hl0]⟩
        split
        · split
          · split
            · intro hf
              simp [hnf] at hf
            · rename_i hloop
              intro _
              exact ⟨anim, hc, by simpa using hloop, rfl⟩
          · intro hf
            simp [hnf] at hf
        · intro hf
          simp [hnf] at hf

/-- `remove_animation` either stops (clearing `finished`) or only
shrinks the dict. -/
theorem finishedInv_remove (m : AnimationManager) (n : String)
    (ih : FinishedInv m) : FinishedInv (m.remove_animation n).2 := by
  unfold AnimationManager.remove_animation
  split
  · exact ih
  · split
    · intro hf
      simp [AnimationManager.stop] at hf
    · exact ih

/-- `clear_animations` stops first, clearing `finished`. -/
theorem finishedInv_clear (m : AnimationManager) :
    FinishedInv m.clear_animations := by
  intro hf
  simp [AnimationManager.clear_animations, AnimationManager.stop] at hf

/-- C6: in every manager state reachable by any sequence of
`add_animation`, `play_animation`, `stop`, `pause`, `resume`, `update`,
`remove_animation` and `clear_animations`, a set `finished` flag
implies the active clip is non-looping and the current frame index
equals `len(frames) - 1` of that clip. -/
theorem claim6_finished_invariant (m : AnimationManager) (h : Reachable m) :
    FinishedInv m := by
  induction h with
  | init => intro hf; simp [initManager] at hf
  | step hr hs ih =>
    cases hs with
    | add a hv => exact finishedInv_add _ a ih
    | play n r => exact finishedInv_play _ n r ih
    | stop => exact finishedInv_stop _
    | pause => exact finishedInv_pause _ ih
    | resume => exact finishedInv_resume _ ih
    | update dt => exact finishedInv_update _ dt ih
    | remove n => exact finishedInv_remove _ n ih
    | clear => exact finishedInv_clear _

/-- Witness for C6 at the concrete initial state. -/
theorem claim6_witness : Reachable initManager ∧ FinishedInv initManager :=
  ⟨Reachable.init, claim6_finished_invariant initManager Reachable.init⟩

/-- `_get_corners` agrees with the spec's description of the corners for
every sprite: at rotation 0 the rotation formula degenerates to the
identity, otherwise the two compute the same composite map. -/
theorem getCorners_eq_cornersSpec (s : Sprite) : s.getCorners = cornersSpec s := by
  unfold Sprite.getCorners cornersSpec
  by_cases hr : s.rotation = 0
  · simp [hr, radians]
  · simp only [hr, ne_eq, not_false_iff, if_true, List.map_map]
    rfl

/-- C3: the world-space rectangle hitbox corners follow the documented
formula (custom size unscaled, rotation negated, center truncated), the
rectangle-rectangle collision path runs the SAT on exactly
`_get_corners` of both sprites, and `debug_draw` draws exactly those
corners (truncated for the screen). -/
theorem claim3_corner_consistency (s t : Sprite)
    (hs : s.hitbox_shape = HitboxShape.rect) (ht : t.hitbox_shape = HitboxShape.rect) :
    s.getCorners = cornersSpec s ∧
    collidesWith s t = sepAxisTest s.getCorners t.getCorners ∧
    debugDrawCorners s = (s.getCorners.map fun p => (pyInt p.1, pyInt p.2)) := by
  refine ⟨getCorners_eq_cornersSpec s, ?_, rfl⟩
  simp [collidesWith, hs, ht]

/-- Witness for C3 at two concrete rectangle sprites. -/
theorem claim3_witness :
    baseSprite.hitbox_shape = HitboxShape.rect ∧
    farSprite.hitbox_shape = HitboxShape.rect ∧
    (baseSprite.getCorners = cornersSpec baseSprite ∧
     collidesWith baseSprite farSprite =
       sepAxisTest baseSprite.getCorners farSprite.getCorners ∧
     debugDrawCorners baseSprite =
       (baseSprite.getCorners.map fun p => (pyInt p.1, pyInt p.2))) :=
  ⟨rfl, rfl, claim3_corner_consistency baseSprite farSprite rfl rfl⟩

/-- A zero-length edge never separates: its axis is skipped. -/
theorem separates_degenerate (A B : List Point) (p : Point) :
    separates A B p p = false := by
  simp [separates, edgeLen, edgeNormal]

/-- The SAT skip guard `length == 0` fires exactly on zero-length
edges. -/
theorem edgeLen_eq_zero_iff (p q : Point) : edgeLen p q = 0 ↔ p = q := by
  unfold edgeLen edgeNormal
  dsimp only
  rw [Real.sqrt_eq_zero']
  constructor
  · intro h
    have h1 : (q.2 - p.2) ^ 2 = 0 := by nlinarith [sq_nonneg (q.2 - p.2), sq_nonneg (q.1 - p.1)]
    have h2 : (q.1 - p.1) ^ 2 = 0 := by nlinarith [sq_nonneg (q.2 - p.2), sq_nonneg (q.1 - p.1)]
    have h1' : p.2 = q.2 := by have := sq_eq_zero_iff.mp h1; linarith
    have h2' : p.1 = q.1 := by have := sq_eq_zero_iff.mp h2; linarith
    exact Prod.ext h2' h1'
  · rintro rfl
    simp

/-- A zero-length segment degenerates to point-to-point distance. -/
theorem pointToLineDistance_degenerate (p a : Point) :
    pointToLineDistance p a a = pointDist p a := by
  simp [pointToLineDistance, lineLenSq]

/-- The division guard `line_len_sq == 0` fires exactly on zero-length
segments. -/
theorem lineLenSq_eq_zero_iff (l1 l2 : Point) : lineLenSq l1 l2 = 0 ↔ l1 = l2 := by
  unfold lineLenSq
  constructor
  · intro h
    have ha : (l2.1 - l1.1) * (l2.1 - l1.1) = 0 := by
      nlinarith [mul_self_nonneg (l2.1 - l1.1), mul_self_nonneg (l2.2 - l1.2)]
    have hb : (l2.2 - l1.2) * (l2.2 - l1.2) = 0 := by
      nlinarith [mul_self_nonneg (l2.1 - l1.1), mul_self_nonneg (l2.2 - l1.2)]
    have h1 : l1.1 = l2.1 := by have := mul_self_eq_zero.mp ha; linarith
    have h2 : l1.2 = l2.2 := by have := mul_self_eq_zero.mp hb; linarith
    exact Prod.ext h1 h2
  · rintro rfl
    ring

/-- C9: the degenerate-geometry policies of the collision helpers.  A
zero-length polygon edge contributes no axis to the SAT (its skip guard
holds exactly for degenerate edges, so no normalization ever divides by
zero), and the point-to-segment distance of a zero-length segment is
the point-to-point distance to the endpoint (its division guard holds
exactly for degenerate segments). -/
theorem claim9_degenerate_geometry :
    (∀ (A B : List Point) (p : Point), separates A B p p = false) ∧
    (∀ p q : Point, edgeLen p q = 0 ↔ p = q) ∧
    (∀ p a : Point, pointToLineDistance p a a = pointDist p a) ∧
    (∀ l1 l2 : Point, lineLenSq l1 l2 = 0 ↔ l1 = l2) :=
  ⟨separates_degenerate, edgeLen_eq_zero_iff, pointToLineDistance_degenerate,
    lineLenSq_eq_zero_iff⟩

/-- C10: the sprite-level `play_animation` writes the mirror override
before the name lookup, so an unknown name still flips `_mirrored`
while the manager state stays untouched and the call reports failure. -/
theorem claim10_mirror_set_before_lookup (s : Sprite) (m : Bool) (name : String)
    (restart : Bool) (h : s.animation_manager.animations name = none) :
    (s.play_animation name restart (some m)).1 = false ∧
    (s.play_animation name restart (some m)).2.mirrored = m ∧
    (s.play_animation name restart (some m)).2.animation_manager = s.animation_manager := by
  simp [Sprite.play_animation, AnimationManager.play_animation, h]

/-- Witness for C10 at a concrete sprite and unknown name. -/
theorem claim10_witness :
    baseSprite.animation_manager.animations "ghost" = none ∧
    ((baseSprite.play_animation "ghost" false (some true)).1 = false ∧
     (baseSprite.play_animation "ghost" false (some true)).2.mirrored = true ∧
     (baseSprite.play_animation "ghost" false (some true)).2.animation_manager =
       baseSprite.animation_manager) :=
  ⟨rfl, claim10_mirror_set_before_lookup baseSprite true "ghost" false rfl⟩

/-- Swapping the two disjuncts of the separation test. -/
theorem ite_or_comm_bool (x y z w : ℝ) :
    (if x < y ∨ z < w then true else false) =
    (if z < w ∨ x < y then true else false) := by
  by_cases h : x < y ∨ z < w
  · rw [if_pos h, if_pos (Or.symm h)]
  · rw [if_neg h, if_neg (fun hc => h (Or.symm hc))]

/-- One SAT axis check is symmetric in the two polygons: the separation
condition is a disjunction of the two orderings. -/
theorem separates_swap (A B : List Point) (p q : Point) :
    separates A B p q = separates B A p q := by
  unfold separates
  by_cases h : edgeLen p q = 0
  · simp [h]
  · simp only [h, if_false]
    exact ite_or_comm_bool _ _ _ _

/-- The whole separating-axis test is symmetric: both directions test
the same combined list of edge axes with a symmetric check. -/
theorem sepAxisTest_comm (A B : List Point) :
    sepAxisTest A B = sepAxisTest B A := by
  unfold sepAxisTest
  rw [List.all_append, List.all_append, Bool.and_comm]
  congr 1
  · simp only [separates_swap A B]
  · simp only [separates_swap A B]

/-- Circle-circle collision is symmetric: squared center differences and
the radius sum are. -/
theorem checkCircleCollision_comm (a b : Sprite) :
    checkCircleCollision a b = checkCircleCollision b a := by
  unfold checkCircleCollision
  have harg :
      (((b.hitboxCenter.1 - a.hitboxCenter.1 : ℤ)) : ℝ) *
        (((b.hitboxCenter.1 - a.hitboxCenter.1 : ℤ)) : ℝ) +
      (((b.hitboxCenter.2 - a.hitboxCenter.2 : ℤ)) : ℝ) *
        (((b.hitboxCenter.2 - a.hitboxCenter.2 : ℤ)) : ℝ) =
      (((a.hitboxCenter.1 - b.hitboxCenter.1 : ℤ)) : ℝ) *
        (((a.hitboxCenter.1 - b.hitboxCenter.1 : ℤ)) : ℝ) +
      (((a.hitboxCenter.2 - b.hitboxCenter.2 : ℤ)) : ℝ) *
        (((a.hitboxCenter.2 - b.hitboxCenter.2 : ℤ)) : ℝ) := by
    push_cast
    ring
  rw [add_comm a.radius b.radius, harg]

/-- Mixed-shape collision is symmetric: both call directions identify
the same circle sprite and the same rectangle sprite. -/
theorem checkCircleRectCollision_swap (a b : Sprite)
    (ha : a.hitbox_shape = HitboxShape.circle) (hb : b.hitbox_shape = HitboxShape.rect) :
    checkCircleRectCollision a b = checkCircleRectCollision b a := by
  unfold checkCircleRectCollision
  simp [ha, hb]

/-- C4: `collides_with` is symmetric for every well-formed pair of
sprites across all shape combinations — circle/circle,
circle/rectangle either way round, and rectangle/rectangle through the
separating-axis test. -/
theorem claim4_collision_symmetry (a b : Sprite)
    (ha : Wellformed a) (hb : Wellformed b) :
    collidesWith a b = collidesWith b a := by
  unfold collidesWith
  cases hsa : a.hitbox_shape <;> cases hsb : b.hitbox_shape
  · simp [hsa, hsb, sepAxisTest_comm a.getCorners b.getCorners]
  · simp only [hsa, hsb]
    simp only [reduceCtorEq, false_and, and_false, if_false, false_or, or_false, if_true]
    exact (checkCircleRectCollision_swap b a hsb hsa).symm
  · simp only [hsa, hsb]
    simp only [reduceCtorEq, false_and, and_false, if_false, false_or, or_false, if_true]
    exact checkCircleRectCollision_swap a b hsa hsb
  · simp [hsa, hsb, checkCircleCollision_comm a b]

/-- Witness for C4 at two concrete well-formed circle sprites. -/
theorem claim4_witness :
    Wellformed circleSpriteA ∧ Wellformed circleSpriteB ∧
    collidesWith circleSpriteA circleSpriteB = collidesWith circleSpriteB circleSpriteA :=
  ⟨fun _ => rfl, fun _ => rfl,
    claim4_collision_symmetry circleSpriteA circleSpriteB (fun _ => rfl) (fun _ => rfl)⟩

/-- A strict upper bound on the accumulator and every element bounds a
`foldl max`. -/
theorem foldl_max_lt_of_lt (c : ℝ) :
    ∀ (l : List ℝ) (x : ℝ), x < c → (∀ y ∈ l, y < c) → l.foldl max x < c
  | [], _, hx, _ => hx
  | a :: l, x, hx, hl =>
    foldl_max_lt_of_lt c l (max x a) (max_lt hx (hl a (List.mem_cons_self a l)))
      (fun y hy => hl y (List.mem_cons_of_mem a hy))

/-- A strict lower bound on the accumulator and every element bounds a
`foldl min`. -/
theorem lt_foldl_min_of_lt (c : ℝ) :
    ∀ (l : List ℝ) (x : ℝ), c < x → (∀ y ∈ l, c < y) → c < l.foldl min x
  | [], _, hx, _ => hx
  | a :: l, x, hx, hl =>
    lt_foldl_min_of_lt c l (min x a) (lt_min hx (hl a (List.mem_cons_self a l)))
      (fun y hy => hl y (List.mem_cons_of_mem a hy))

/-- The accumulator bounds `foldl max` from below. -/
theorem le_foldl_max : ∀ (l : List ℝ) (x : ℝ), x ≤ l.foldl max x
  | [], x => le_refl x
  | a :: l, x => le_trans (le_max_left x a) (le_foldl_max l (max x a))

/-- Every member bounds `foldl max` from below. -/
theorem mem_le_foldl_max : ∀ (l : List ℝ) (x y : ℝ), y ∈ l → y ≤ l.foldl max x
  | [], _, y, hy => absurd hy (List.not_mem_nil y)
  | a :: l, x, y, hy => by
    rcases List.mem_cons.mp hy with rfl | hy'
    · exact le_trans (le_max_right x y) (le_foldl_max l (max x y))
    · exact mem_le_foldl_max l (max x a) y hy'

/-- The accumulator bounds `foldl min` from above. -/
theorem foldl_min_le : ∀ (l : List ℝ) (x : ℝ), l.foldl min x ≤ x
  | [], x => le_refl x
  | a :: l, x => le_trans (foldl_min_le l (min x a)) (min_le_left x a)

/-- Every member bounds `foldl min` from above. -/
theorem foldl_min_le_mem : ∀ (l : List ℝ) (x y : ℝ), y ∈ l → l.foldl min x ≤ y
  | [], _, y, hy => absurd hy (List.not_mem_nil y)
  | a :: l, x, y, hy => by
    rcases List.mem_cons.mp hy with rfl | hy'
    · exact le_trans (foldl_min_le l (min x y)) (min_le_right x y)
    · exact foldl_min_le_mem l (min x a) y hy'

/-- Membership bound for `listMax`. -/
theorem le_listMax {l : List ℝ} {y : ℝ} (hy : y ∈ l) : y ≤ listMax l := by
  cases l with
  | nil => exact absurd hy (List.not_mem_nil y)
  | cons x xs =>
    rcases List.mem_cons.mp hy with rfl | hy'
    · exact le_foldl_max xs y
    · exact mem_le_foldl_max xs x y hy'

/-- Membership bound for `listMin`. -/
theorem listMin_le {l : List ℝ} {y : ℝ} (hy : y ∈ l) : listMin l ≤ y := by
  cases l with
  | nil => exact absurd hy (List.not_mem_nil y)
  | cons x xs =>
    rcases List.mem_cons.mp hy with rfl | hy'
    · exact foldl_min_le xs y
    · exact foldl_min_le_mem xs x y hy'

/-- A strict bound on every element strictly bounds `listMax`. -/
theorem listMax_lt {l : List ℝ} {c : ℝ} (hne : l ≠ []) (h : ∀ y ∈ l, y < c) :
    listMax l < c := by
  cases l with
  | nil => exact absurd rfl hne
  | cons x xs =>
    exact foldl_max_lt_of_lt c xs x (h x (List.mem_cons_self x xs))
      (fun y hy => h y (List.mem_cons_of_mem x hy))

/-- A strict bound below every element strictly bounds `listMin`. -/
theorem lt_listMin {l : List ℝ} {c : ℝ} (hne : l ≠ []) (h : ∀ y ∈ l, c < y) :
    c < listMin l := by
  cases l with
  | nil => exact absurd rfl hne
  | cons x xs =>
    exact lt_foldl_min_of_lt c xs x (h x (List.mem_cons_self x xs))
      (fun y hy => h y (List.mem_cons_of_mem x hy))

/-- Pointwise strict comparison of two nonempty lists compares their
max and min. -/
theorem listMax_lt_listMin {l1 l2 : List ℝ} (h1 : l1 ≠ []) (h2 : l2 ≠ [])
    (h : ∀ x ∈ l1, ∀ y ∈ l2, x < y) : listMax l1 < listMin l2 :=
  listMax_lt h1 (fun y hy => lt_listMin h2 (fun z hz => h y hy z hz))

/-- Projections of two polygons that are pointwise strictly ordered in
one direction are separated in the min/max sense the SAT checks. -/
theorem proj_separation (g : Point → ℝ) (A B : List Point) (hA : A ≠ []) (hB : B ≠ [])
    (hmono : (∀ p ∈ A, ∀ q ∈ B, g p < g q) ∨ (∀ p ∈ B, ∀ q ∈ A, g p < g q)) :
    listMax (A.map g) < listMin (B.map g) ∨ listMax (B.map g) < listMin (A.map g) := by
  rcases hmono with h1 | h2
  · left
    apply listMax_lt_listMin (by simpa using hA) (by simpa using hB)
    intro x hx y hy
    obtain ⟨p, hp, rfl⟩ := List.mem_map.mp hx
    obtain ⟨q, hq, rfl⟩ := List.mem_map.mp hy
    exact h1 p hp q hq
  · right
    apply listMax_lt_listMin (by simpa using hB) (by simpa using hA)
    intro x hx y hy
    obtain ⟨p, hp, rfl⟩ := List.mem_map.mp hx
    obtain ⟨q, hq, rfl⟩ := List.mem_map.mp hy
    exact h2 p hp q hq

/-- A vertical edge of nonzero length separates two polygons whose x
coordinates are pointwise strictly ordered either way. -/
theorem separates_vertical (A B : List Point) (hA : A ≠ []) (hB : B ≠ [])
    (x u v : ℝ) (huv : u ≠ v)
    (h : (∀ p ∈ A, ∀ q ∈ B, p.1 < q.1) ∨ (∀ p ∈ B, ∀ q ∈ A, p.1 < q.1)) :
    separates A B (x, u) (x, v) = true := by
  have hd : v - u ≠ 0 := sub_ne_zero.mpr (Ne.symm huv)
  have hnorm : edgeNormal (x, u) (x, v) = (-(v - u), 0) := by
    simp [edgeNormal]
  have hlen : edgeLen (x, u) (x, v) = |v - u| := by
    rw [edgeLen, hnorm]
    dsimp only
    rw [show (-(v - u)) ^ 2 + ((0 : ℝ)) ^ 2 = (v - u) ^ 2 by ring]
    exact Real.sqrt_sq_eq_abs _
  unfold separates
  rw [hnorm, hlen, if_neg (abs_ne_zero.mpr hd)]
  dsimp only
  simp only [zero_div, mul_zero, add_zero]
  rcases hd.lt_or_lt with hneg | hpos
  · have hs : -(v - u) / |v - u| = 1 := by
      rw [abs_of_neg hneg]
      exact div_self (neg_ne_zero.mpr hd)
    simp only [hs, mul_one]
    rw [if_pos (proj_separation (fun c : Point => c.1) A B hA hB h)]
  · have hs : -(v - u) / |v - u| = -1 := by
      rw [abs_of_pos hpos, neg_div, div_self hd]
    simp only [hs, mul_neg_one]
    have hmono : (∀ p ∈ A, ∀ q ∈ B, -p.1 < -q.1) ∨ (∀ p ∈ B, ∀ q ∈ A, -p.1 < -q.1) := by
      rcases h with h1 | h2
      · right
        intro p hp q hq
        exact neg_lt_neg (h1 q hq p hp)
      · left
        intro p hp q hq
        exact neg_lt_neg (h2 q hq p hp)
    rw [if_pos (proj_separation (fun c : Point => -c.1) A B hA hB hmono)]

/-- A horizontal edge of nonzero length separates two polygons whose y
coordinates are pointwise strictly ordered either way. -/
theorem separates_horizontal (A B : List Point) (hA : A ≠ []) (hB : B ≠ [])
    (y u v : ℝ) (huv : u ≠ v)
    (h : (∀ p ∈ A, ∀ q ∈ B, p.2 < q.2) ∨ (∀ p ∈ B, ∀ q ∈ A, p.2 < q.2)) :
    separates A B (u, y) (v, y) = true := by
  have hd : v - u ≠ 0 := sub_ne_zero.mpr (Ne.symm huv)
  have hnorm : edgeNormal (u, y) (v, y) = (0, v - u) := by
    simp [edgeNormal]
  have hlen : edgeLen (u, y) (v, y) = |v - u| := by
    rw [edgeLen, hnorm]
    dsimp only
    rw [show ((0 : ℝ)) ^ 2 + (v - u) ^ 2 = (v - u) ^ 2 by ring]
    exact Real.sqrt_sq_eq_abs _
  unfold separates
  rw [hnorm, hlen, if_neg (abs_ne_zero.mpr hd)]
  dsimp only
  simp only [zero_div, mul_zero, zero_add]
  rcases hd.lt_or_lt with hneg | hpos
  · have hs : (v - u) / |v - u| = -1 := by
      rw [abs_of_neg hneg, div_neg, div_self hd]
    simp only [hs, mul_neg_one]
    have hmono : (∀ p ∈ A, ∀ q ∈ B, -p.2 < -q.2) ∨ (∀ p ∈ B, ∀ q ∈ A, -p.2 < -q.2) := by
      rcases h with h1 | h2
      · right
        intro p hp q hq
        exact neg_lt_neg (h1 q hq p hp)
      · left
        intro p hp q hq
        exact neg_lt_neg (h2 q hq p hp)
    rw [if_pos (proj_separation (fun c : Point => -c.2) A B hA hB hmono)]
  · have hs : (v - u) / |v - u| = 1 := by
      rw [abs_of_pos hpos]
      exact div_self hd
    simp only [hs, mul_one]
    rw [if_pos (proj_separation (fun c : Point => c.2) A B hA hB h)]

/-- If any listed edge separates, the SAT reports no collision. -/
theorem sepAxisTest_eq_false_of (A B : List Point) (e : Point × Point)
    (hmem : e ∈ edgePairs A ++ edgePairs B) (hsep : separates A B e.1 e.2 = true) :
    sepAxisTest A B = false := by
  unfold sepAxisTest
  cases hall : (edgePairs A ++ edgePairs B).all (fun e => !separates A B e.1 e.2) with
  | false => rfl
  | true =>
    exfalso
    have h' := List.all_eq_true.mp hall e hmem
    rw [hsep] at h'
    simp at h'

/-- The four edges of a quadrilateral, unrolled. -/
theorem edgePairs_quad (c0 c1 c2 c3 : Point) :
    edgePairs [c0, c1, c2, c3] = [(c0, c1), (c1, c2), (c2, c3), (c3, c0)] := rfl

/-- `_get_corners` of an unrotated sprite: the axis-aligned box around
the integer hitbox center. -/
theorem getCorners_axis_aligned (s : Sprite) (hr : s.rotation = 0) :
    s.getCorners =
      [((s.hitboxCenter.1 : ℝ) + -(s.hitboxWidth / 2),
        (s.hitboxCenter.2 : ℝ) + -(s.hitboxHeight / 2)),
       ((s.hitboxCenter.1 : ℝ) + s.hitboxWidth / 2,
        (s.hitboxCenter.2 : ℝ) + -(s.hitboxHeight / 2)),
       ((s.hitboxCenter.1 : ℝ) + s.hitboxWidth / 2,
        (s.hitboxCenter.2 : ℝ) + s.hitboxHeight / 2),
       ((s.hitboxCenter.1 : ℝ) + -(s.hitboxWidth / 2),
        (s.hitboxCenter.2 : ℝ) + s.hitboxHeight / 2)] := by
  unfold Sprite.getCorners
  rw [if_neg (by simp [hr])]
  simp

/-- The degenerate sprite's corners all coincide at its center. -/
theorem pointSpriteA_corners :
    pointSpriteA.getCorners = [((0 : ℝ), 0), (0, 0), (0, 0), (0, 0)] := by
  rw [getCorners_axis_aligned pointSpriteA rfl]
  norm_num [pointSpriteA, baseSprite, Sprite.hitboxWidth, Sprite.hitboxHeight,
    Sprite.hitboxCenter, pyInt]

/-- The second degenerate sprite's corners all coincide at `(100, 0)`. -/
theorem pointSpriteB_corners :
    pointSpriteB.getCorners = [((100 : ℝ), 0), (100, 0), (100, 0), (100, 0)] := by
  rw [getCorners_axis_aligned pointSpriteB rfl]
  norm_num [pointSpriteB, baseSprite, Sprite.hitboxWidth, Sprite.hitboxHeight,
    Sprite.hitboxCenter, pyInt]

/-- Counterexample to C5 as stated: two axis-aligned rectangle sprites
with custom `(0, 0)` hitboxes have disjoint corner x-ranges (0 versus
100) yet `collides_with` returns `True` — all their edges are
zero-length, every axis is skipped, and the SAT finds no separation. -/
theorem claim5_counterexample :
    pointSpriteA.hitbox_shape = HitboxShape.rect ∧
    pointSpriteB.hitbox_shape = HitboxShape.rect ∧
    pointSpriteA.rotation = 0 ∧ pointSpriteB.rotation = 0 ∧
    listMax (cornerXs pointSpriteA) < listMin (cornerXs pointSpriteB) ∧
    collidesWith pointSpriteA pointSpriteB = true := by
  refine ⟨rfl, rfl, rfl, rfl, ?_, ?_⟩
  · rw [cornerXs, cornerXs, pointSpriteA_corners, pointSpriteB_corners]
    norm_num [listMax, listMin]
  · have hsh : pointSpriteA.hitbox_shape = HitboxShape.rect := rfl
    have hsh' : pointSpriteB.hitbox_shape = HitboxShape.rect := rfl
    have hred : collidesWith pointSpriteA pointSpriteB =
        sepAxisTest pointSpriteA.getCorners pointSpriteB.getCorners := by
      simp [collidesWith, hsh, hsh']
    rw [hred, pointSpriteA_corners, pointSpriteB_corners]
    unfold sepAxisTest
    rw [edgePairs_quad, edgePairs_quad]
    simp [separates_degenerate]

/-- C5 amended: for axis-aligned rectangle sprites, disjoint corner
x-ranges imply no collision provided at least one of the two hitboxes
has nonzero height (so a vertical edge supplies the x axis), and
symmetrically disjoint y-ranges imply no collision provided at least
one hitbox has nonzero width.  (For hitboxes that are degenerate in
both sprites the SAT has no axes and reports a collision, see the
counterexample.) -/
theorem claim5_amended_axis_separation (a b : Sprite)
    (hsa : a.hitbox_shape = HitboxShape.rect) (hsb : b.hitbox_shape = HitboxShape.rect)
    (hra : a.rotation = 0) (hrb : b.rotation = 0) :
    ((listMax (cornerXs a) < listMin (cornerXs b) ∨
      listMax (cornerXs b) < listMin (cornerXs a)) →
     (a.hitboxHeight ≠ 0 ∨ b.hitboxHeight ≠ 0) →
     collidesWith a b = false) ∧
    ((listMax (cornerYs a) < listMin (cornerYs b) ∨
      listMax (cornerYs b) < listMin (cornerYs a)) →
     (a.hitboxWidth ≠ 0 ∨ b.hitboxWidth ≠ 0) →
     collidesWith a b = false) := by
  have hcw : collidesWith a b = sepAxisTest a.getCorners b.getCorners := by
    simp [collidesWith, hsa, hsb]
  have hA := getCorners_axis_aligned a hra
  have hB := getCorners_axis_aligned b hrb
  have hAne : a.getCorners ≠ [] := by rw [hA]; simp
  have hBne : b.getCorners ≠ [] := by rw [hB]; simp
  constructor
  · intro hx hH
    have hpt : (∀ p ∈ a.getCorners, ∀ q ∈ b.getCorners, p.1 < q.1) ∨
        (∀ p ∈ b.getCorners, ∀ q ∈ a.getCorners, p.1 < q.1) := by
      rcases hx with hx1 | hx2
      · left
        intro p hp q hq
        calc p.1 ≤ listMax (cornerXs a) := le_listMax (List.mem_map_of_mem Prod.fst hp)
          _ < listMin (cornerXs b) := hx1
          _ ≤ q.1 := listMin_le (List.mem_map_of_mem Prod.fst hq)
      · right
        intro p hp q hq
        calc p.1 ≤ listMax (cornerXs b) := le_listMax (List.mem_map_of_mem Prod.fst hp)
          _ < listMin (cornerXs a) := hx2
          _ ≤ q.1 := listMin_le (List.mem_map_of_mem Prod.fst hq)
    rw [hcw]
    rcases hH with hHa | hHb
    · refine sepAxisTest_eq_false_of a.getCorners b.getCorners
        (((a.hitboxCenter.1 : ℝ) + a.hitboxWidth / 2,
          (a.hitboxCenter.2 : ℝ) + -(a.hitboxHeight / 2)),
         ((a.hitboxCenter.1 : ℝ) + a.hitboxWidth / 2,
          (a.hitboxCenter.2 : ℝ) + a.hitboxHeight / 2)) ?_ ?_
      · refine List.mem_append.mpr (Or.inl ?_)
        rw [hA, edgePairs_quad]
        exact List.mem_cons_of_mem _ (List.mem_cons_self _ _)
      · refine separates_vertical a.getCorners b.getCorners hAne hBne _ _ _
          (fun heq => hHa (by linarith [add_left_cancel heq])) hpt
    · refine sepAxisTest_eq_false_of a.getCorners b.getCorners
        (((b.hitboxCenter.1 : ℝ) + b.hitboxWidth / 2,
          (b.hitboxCenter.2 : ℝ) + -(b.hitboxHeight / 2)),
         ((b.hitboxCenter.1 : ℝ) + b.hitboxWidth / 2,
          (b.hitboxCenter.2 : ℝ) + b.hitboxHeight / 2)) ?_ ?_
      · refine List.mem_append.mpr (Or.inr ?_)
        rw [hB, edgePairs_quad]
        exact List.mem_cons_of_mem _ (List.mem_cons_self _ _)
      · refine separates_vertical a.getCorners b.getCorners hAne hBne _ _ _
          (fun heq => hHb (by linarith [add_left_cancel heq])) hpt
  · intro hy hW
    have hpt : (∀ p ∈ a.getCorners, ∀ q ∈ b.getCorners, p.2 < q.2) ∨
        (∀ p ∈ b.getCorners, ∀ q ∈ a.getCorners, p.2 < q.2) := by
      rcases hy with hy1 | hy2
      · left
        intro p hp q hq
        calc p.2 ≤ listMax (cornerYs a) := le_listMax (List.mem_map_of_mem Prod.snd hp)
          _ < listMin (cornerYs b) := hy1
          _ ≤ q.2 := listMin_le (List.mem_map_of_mem Prod.snd hq)
      · right
        intro p hp q hq
        calc p.2 ≤ listMax (cornerYs b) := le_listMax (List.mem_map_of_mem Prod.snd hp)
          _ < listMin (cornerYs a) := hy2
          _ ≤ q.2 := listMin_le (List.mem_map_of_mem Prod.snd hq)
    rw [hcw]
    rcases hW with hWa | hWb
    · refine sepAxisTest_eq_false_of a.getCorners b.getCorners
        (((a.hitboxCenter.1 : ℝ) + -(a.hitboxWidth / 2),
          (a.hitboxCenter.2 : ℝ) + -(a.hitboxHeight / 2)),
         ((a.hitboxCenter.1 : ℝ) + a.hitboxWidth / 2,
          (a.hitboxCenter.2 : ℝ) + -(a.hitboxHeight / 2))) ?_ ?_
      · refine List.mem_append.mpr (Or.inl ?_)
        rw [hA, edgePairs_quad]
        exact List.mem_cons_self _ _
      · refine separates_horizontal a.getCorners b.getCorners hAne hBne _ _ _
          (fun heq => hWa (by linarith [add_left_cancel heq])) hpt
    · refine sepAxisTest_eq_false_of a.getCorners b.getCorners
        (((b.hitboxCenter.1 : ℝ) + -(b.hitboxWidth / 2),
          (b.hitboxCenter.2 : ℝ) + -(b.hitboxHeight / 2)),
         ((b.hitboxCenter.1 : ℝ) + b.hitboxWidth / 2,
          (b.hitboxCenter.2 : ℝ) + -(b.hitboxHeight / 2))) ?_ ?_
      · refine List.mem_append.mpr (Or.inr ?_)
        rw [hB, edgePairs_quad]
        exact List.mem_cons_self _ _
      · refine separates_horizontal a.getCorners b.getCorners hAne hBne _ _ _
          (fun heq => hWb (by linarith [add_left_cancel heq])) hpt

/-- Corners of the default 32x32 sprite at the origin. -/
theorem baseSprite_corners :
    baseSprite.getCorners = [((-16 : ℝ), -16), (16, -16), (16, 16), (-16, 16)] := by
  rw [getCorners_axis_aligned baseSprite rfl]
  norm_num [baseSprite, Sprite.hitboxWidth, Sprite.hitboxHeight, Sprite.hitboxCenter, pyInt]

/-- Corners of the same sprite moved to `x = 100`. -/
theorem farSprite_corners :
    farSprite.getCorners = [((84 : ℝ), -16), (116, -16), (116, 16), (84, 16)] := by
  rw [getCorners_axis_aligned farSprite rfl]
  norm_num [farSprite, baseSprite, Sprite.hitboxWidth, Sprite.hitboxHeight,
    Sprite.hitboxCenter, pyInt]

/-- Witness for the amended C5 at two concrete separated sprites. -/
theorem claim5_witness :
    baseSprite.hitbox_shape = HitboxShape.rect ∧
    farSprite.hitbox_shape = HitboxShape.rect ∧
    baseSprite.rotation = 0 ∧ farSprite.rotation = 0 ∧
    (listMax (cornerXs baseSprite) < listMin (cornerXs farSprite) ∨
     listMax (cornerXs farSprite) < listMin (cornerXs baseSprite)) ∧
    (baseSprite.hitboxHeight ≠ 0 ∨ farSprite.hitboxHeight ≠ 0) ∧
    collidesWith baseSprite farSprite = false := by
  have hx : listMax (cornerXs baseSprite) < listMin (cornerXs farSprite) := by
    rw [cornerXs, cornerXs, baseSprite_corners, farSprite_corners]
    norm_num [listMax, listMin]
  have hh : baseSprite.hitboxHeight ≠ 0 := by
    norm_num [Sprite.hitboxHeight, baseSprite]
  refine ⟨rfl, rfl, rfl, rfl, Or.inl hx, Or.inl hh, ?_⟩
  exact (claim5_amended_axis_separation baseSprite farSprite rfl rfl rfl rfl).1
    (Or.inl hx) (Or.inl hh)
